import Mathlib

/-!
Verification of the snapshot lifecycle and change-coalescing subsystem of
the backup_with_restic repository, as a shallow embedding in Lean 4.

Source files embedded:
  src/models.py          (FileChange, SnapshotMetadata)
  src/metadata_store.py  (MetadataStore: save / get / get_recent / search)
  src/restic_wrapper.py  (resolve_snapshot_ref; the restic engine is modelled
                          as its snapshot listing, oldest to newest)
  src/backup_manager.py  (ModernBackupManager: snapshot, diff, forget)
  src/monitor.py         (FileMonitor auto-snapshot evaluation,
                          ScheduledBackupService._parse_schedule / loop)

Modelling conventions:
  - Python datetime values are modelled as integers (seconds); a timedelta is
    an integer number of seconds.  datetime.isoformat / fromisoformat is an
    exact round trip, so the timestamp column stores the value itself.
  - json.dumps / json.loads on lists of strings and on the stats mapping is
    an exact round trip (the repository stores only JSON-representable
    values there), so the tags and stats columns store the values
    themselves; stats values are modelled as integers.
  - Python dicts are insertion-ordered with last-write-wins updates; they
    are modelled as association lists with an upsert operation.
  - Python int(...) accepts surrounding ASCII whitespace, an optional sign,
    and digits with single underscores between digits; pyInt models this.
  - Python negative list indexing l[k] (k < 0 meaning l[len+k]) is modelled
    by pyIndex, returning none where Python raises IndexError.
-/

namespace BackupRestic

/-! ## Python dictionaries as insertion-ordered association lists -/

/-- Python dict assignment d[k] = v: replace in place if the key is present
(keeping the key's original position), else append. -/
def dictUpsert {κ α : Type} [DecidableEq κ] (d : List (κ × α)) (k : κ) (v : α) :
    List (κ × α) :=
  if d.any (fun p => p.1 = k) then
    d.map (fun p => if p.1 = k then (k, v) else p)
  else
    d ++ [(k, v)]

/-- Python dict lookup d.get(k). -/
def dictLookup {κ α : Type} [DecidableEq κ] (d : List (κ × α)) (k : κ) : Option α :=
  (d.find? (fun p => p.1 = k)).map (fun p => p.2)

/-- Keys of the model dict. -/
def dictKeys {κ α : Type} (d : List (κ × α)) : List κ := d.map (fun p => p.1)

theorem dictKeys_map_keep {κ α : Type} [DecidableEq κ]
    (d : List (κ × α)) (k : κ) (v : α) :
    dictKeys (d.map (fun p => if p.1 = k then (k, v) else p)) = dictKeys d := by
  induction d with
  | nil => rfl
  | cons q t ih =>
    by_cases hq : q.1 = k
    · simpa [dictKeys, if_pos hq, hq] using ih
    · simpa [dictKeys, if_neg hq] using ih

theorem dictKeys_upsert {κ α : Type} [DecidableEq κ]
    (d : List (κ × α)) (k : κ) (v : α) (x : κ) :
    x ∈ dictKeys (dictUpsert d k v) ↔ x ∈ dictKeys d ∨ x = k := by
  unfold dictUpsert
  by_cases h : d.any (fun p => p.1 = k)
  · rw [if_pos h, dictKeys_map_keep]
    have hk : k ∈ dictKeys d := by
      rw [List.any_eq_true] at h
      obtain ⟨p, hp, hpk⟩ := h
      simp only [decide_eq_true_eq] at hpk
      exact hpk ▸ List.mem_map_of_mem (fun p => p.1) hp
    exact ⟨Or.inl, fun hx => hx.elim id (fun he => he ▸ hk)⟩
  · rw [if_neg h]
    simp [dictKeys]

theorem dictMem_upsert {κ α : Type} [DecidableEq κ]
    (d : List (κ × α)) (k : κ) (v : α) (x : κ × α) :
    x ∈ dictUpsert d k v → x ∈ d ∨ x = (k, v) := by
  unfold dictUpsert
  by_cases h : d.any (fun p => p.1 = k)
  · rw [if_pos h]
    intro hx
    rw [List.mem_map] at hx
    obtain ⟨q, hq, hqx⟩ := hx
    by_cases hqk : q.1 = k
    · rw [if_pos hqk] at hqx
      right; exact hqx.symm
    · rw [if_neg hqk] at hqx
      left; exact hqx ▸ hq
  · rw [if_neg h]
    intro hx
    rcases List.mem_append.mp hx with hx | hx
    · left; exact hx
    · right; exact List.mem_singleton.mp hx

/-! ## Python integer parsing and list indexing -/

/-- ASCII whitespace accepted by Python's str.strip and int(). -/
def isPySpace (c : Char) : Bool :=
  c = ' ' ∨ c = '\t' ∨ c = '\n' ∨ c = '\r' ∨ c = '\x0b' ∨ c = '\x0c'

/-- Strip whitespace at both ends of a character list. -/
def stripList (l : List Char) : List Char :=
  ((l.dropWhile isPySpace).reverse.dropWhile isPySpace).reverse

/-- Python str.strip(): remove leading and trailing whitespace. -/
def pyStrip (s : String) : String := ⟨stripList s.data⟩

/-- Python str.startswith over the character sequences. -/
def charsStart : List Char → List Char → Bool
  | _, [] => true
  | [], _ :: _ => false
  | c :: cs, p :: ps => (c = p) && charsStart cs ps

/-- Python s.startswith(p). -/
def strStarts (s p : String) : Bool := charsStart s.data p.data

/-- Python slicing s[n:]. -/
def strDrop (s : String) (n : Nat) : String := ⟨s.data.drop n⟩

/-- ASCII decimal digit. -/
def isDecDigit (c : Char) : Bool := 48 ≤ c.toNat && c.toNat ≤ 57

/-- Decimal value of a digit character. -/
def digitVal (c : Char) : Nat := c.toNat - 48

/-- Digits after the first one of a Python int() literal, accumulating a
value; a single underscore is allowed between two digits. -/
def pyDigitsAux (acc : Nat) : List Char → Option Nat
  | [] => some acc
  | c :: rest =>
      if isDecDigit c then pyDigitsAux (acc * 10 + digitVal c) rest
      else if c = '_' then
        match rest with
        | c2 :: rest2 =>
            if isDecDigit c2 then pyDigitsAux (acc * 10 + digitVal c2) rest2
            else none
        | [] => none
      else none

/-- Nonempty digit run with optional single underscores between digits. -/
def pyDigits : List Char → Option Nat
  | c :: rest => if isDecDigit c then pyDigitsAux (digitVal c) rest else none
  | [] => none

/-- Python int(s): optional surrounding whitespace, an optional sign, then
decimal digits. -/
def pyInt (s : String) : Option Int :=
  match (pyStrip s).data with
  | [] => none
  | c :: rest =>
      if c = '-' then (pyDigits rest).map (fun (n : Nat) => -(n : Int))
      else if c = '+' then (pyDigits rest).map (fun (n : Nat) => (n : Int))
      else (pyDigits (c :: rest)).map (fun (n : Nat) => (n : Int))

/-- Python list indexing l[k]: negative k counts from the end; out-of-range
access raises IndexError, modelled as none. -/
def pyIndex {α : Type} (l : List α) (k : Int) : Option α :=
  if 0 ≤ k then l.get? k.toNat
  else if 0 ≤ (l.length : Int) + k then l.get? ((l.length : Int) + k).toNat
  else none

/-- Decimal digit character of n % 10. -/
def digitChar10 (n : Nat) : Char := Char.ofNat (48 + n % 10)

/-- Most-significant-first decimal digits of a natural number. -/
def natDecChars (n : Nat) : List Char :=
  if h : n < 10 then [digitChar10 n]
  else natDecChars (n / 10) ++ [digitChar10 (n % 10)]
  decreasing_by exact Nat.div_lt_self (Nat.lt_of_lt_of_le (by norm_num) (Nat.le_of_not_lt h)) (by norm_num)

/-- Canonical decimal string of a natural number. -/
def natDecStr (n : Nat) : String := ⟨natDecChars n⟩

/-- Canonical decimal string of an integer. -/
def intDecStr (i : Int) : String :=
  if i < 0 then "-" ++ natDecStr (-i).toNat else natDecStr i.toNat

/-! ## Data model (src/models.py) -/

/-- FileChange dataclass from src/models.py. -/
structure FileChange where
  path : String
  change_type : String
  size_bytes : Option Int := none
  checksum : Option String := none
deriving DecidableEq, Repr

/-- SnapshotMetadata pydantic model from src/models.py.  The timestamp is a
datetime (modelled as an integer instant); stats is a JSON-serializable
mapping of named counters (values modelled as integers). -/
structure SnapshotMetadata where
  snapshot_id : String
  message : Option String := none
  timestamp : Int := 0
  author : String := "user"
  tags : List String := []
  file_changes : List FileChange := []
  parent_snapshot : Option String := none
  stats : List (String × Int) := []
deriving DecidableEq, Repr

/-! ## Restic engine listing and reference resolution (src/restic_wrapper.py)

The external restic engine is modelled by its snapshot listing: the ordered
(oldest to newest) sequence returned by restic snapshots --json, each entry
carrying its id and its tags. -/

/-- One entry of the engine's snapshot listing. -/
structure EngineSnap where
  id : String
  tags : List String := []
deriving DecidableEq, Repr

/-- Errors raised by ResticWrapper (ResticError with the message that
identifies the raise site), plus Python's IndexError for an out-of-range
list access. -/
inductive ResticErr where
  | noSnapshots : ResticErr
  | notEnough (ref : String) : ResticErr
  | invalidRef (ref : String) : ResticErr
  | indexError : ResticErr
deriving DecidableEq, Repr

/-- ResticWrapper.resolve_snapshot_ref (src/restic_wrapper.py lines 328-356).
The listing argument is what self.list_snapshots() returns; the tag lookup
list_snapshots(tags=[ref]) is the listing filtered to snapshots carrying the
tag. -/
def resolveSnapshotRef (eng : List EngineSnap) (ref : String) :
    Except ResticErr String :=
  if strStarts ref "snap" then .ok ref
  else if ref = "latest" ∨ ref = "HEAD" then
    match eng.getLast? with
    | none => .error .noSnapshots
    | some s => .ok s.id
  else if strStarts ref "HEAD~" then
    match pyInt (strDrop ref 5) with
    | none => .error (.invalidRef ref)
    | some offset =>
        if (eng.length : Int) ≤ offset then .error (.notEnough ref)
        else
          match pyIndex eng (-(offset + 1)) with
          | some s => .ok s.id
          | none => .error .indexError
  else
    match (eng.filter (fun s => ref ∈ s.tags)).getLast? with
    | some s => .ok s.id
    | none => .ok ref

/-! ## MetadataStore (src/metadata_store.py)

The SQLite database is modelled by its two tables.  The snapshots table is
keyed by snapshot_id (PRIMARY KEY); INSERT OR REPLACE removes any existing
row with the key and inserts the new one.  The file_changes table keeps its
rows in rowid (insertion) order; the reads scan the snapshot_id index, which
yields rows of one snapshot in insertion order.  The tags and stats columns
hold json.dumps of the values (an exact round trip for the string lists and
numeric mappings stored there), so the model stores the values directly;
the timestamp column holds datetime.isoformat, also an exact round trip. -/

/-- Row of the snapshots table. -/
structure SnapRow where
  snapshot_id : String
  message : Option String
  timestamp : Int
  author : String
  tags : List String
  parent_snapshot : Option String
  stats : List (String × Int)
deriving DecidableEq, Repr

/-- Row of the file_changes table (rowid is the list position). -/
structure FCRow where
  snapshot_id : String
  path : String
  change_type : String
  size_bytes : Option Int
  checksum : Option String
deriving DecidableEq, Repr

/-- Contents of the metadata database. -/
structure MetadataDB where
  snapshots : List SnapRow := []
  file_changes : List FCRow := []
deriving DecidableEq, Repr

/-- The INSERT INTO file_changes row built from one FileChange. -/
def fcToRow (sid : String) (c : FileChange) : FCRow :=
  { snapshot_id := sid, path := c.path, change_type := c.change_type,
    size_bytes := c.size_bytes, checksum := c.checksum }

/-- The FileChange reconstructed from a file_changes row
(metadata_store.py lines 138-146). -/
def rowToFc (r : FCRow) : FileChange :=
  { path := r.path, change_type := r.change_type,
    size_bytes := r.size_bytes, checksum := r.checksum }

/-- MetadataStore.save on the database contents (lines 60-105): INSERT OR
REPLACE the snapshots row, DELETE the snapshot's file_changes rows, INSERT
the new file_changes rows in order, all in one transaction. -/
def dbSave (db : MetadataDB) (m : SnapshotMetadata) : MetadataDB :=
  { snapshots :=
      (db.snapshots.filter (fun r => r.snapshot_id ≠ m.snapshot_id)) ++
        [{ snapshot_id := m.snapshot_id, message := m.message,
           timestamp := m.timestamp, author := m.author, tags := m.tags,
           parent_snapshot := m.parent_snapshot, stats := m.stats }],
    file_changes :=
      (db.file_changes.filter (fun r => r.snapshot_id ≠ m.snapshot_id)) ++
        m.file_changes.map (fcToRow m.snapshot_id) }

/-- MetadataStore.get on the database contents (lines 111-157): SELECT the
snapshots row by key, SELECT its file_changes rows, rebuild the value. -/
def dbGet (db : MetadataDB) (sid : String) : Option SnapshotMetadata :=
  match db.snapshots.find? (fun r => r.snapshot_id = sid) with
  | none => none
  | some row =>
      some { snapshot_id := row.snapshot_id, message := row.message,
             timestamp := row.timestamp, author := row.author,
             tags := row.tags, parent_snapshot := row.parent_snapshot,
             stats := row.stats,
             file_changes :=
               (db.file_changes.filter (fun r => r.snapshot_id = sid)).map
                 rowToFc }

theorem dbSave_find? (db : MetadataDB) (m : SnapshotMetadata) :
    (dbSave db m).snapshots.find?
        (fun r => r.snapshot_id = m.snapshot_id) =
      some { snapshot_id := m.snapshot_id, message := m.message,
             timestamp := m.timestamp, author := m.author, tags := m.tags,
             parent_snapshot := m.parent_snapshot, stats := m.stats } := by
  unfold dbSave
  rw [List.find?_append]
  have h1 : (db.snapshots.filter
        (fun r => r.snapshot_id ≠ m.snapshot_id)).find?
        (fun r => r.snapshot_id = m.snapshot_id) = none := by
    rw [List.find?_eq_none]
    intro x hx
    have := (List.mem_filter.mp hx).2
    simpa using this
  rw [h1]
  simp

theorem dbSave_fc_filter (db : MetadataDB) (m : SnapshotMetadata) :
    (dbSave db m).file_changes.filter
        (fun r => r.snapshot_id = m.snapshot_id) =
      m.file_changes.map (fcToRow m.snapshot_id) := by
  unfold dbSave
  rw [List.filter_append]
  have h1 : (db.file_changes.filter
        (fun r => r.snapshot_id ≠ m.snapshot_id)).filter
        (fun r => r.snapshot_id = m.snapshot_id) = [] := by
    rw [List.filter_eq_nil_iff]
    intro x hx
    have := (List.mem_filter.mp hx).2
    simpa using this
  have h2 : (m.file_changes.map (fcToRow m.snapshot_id)).filter
        (fun r => r.snapshot_id = m.snapshot_id) =
      m.file_changes.map (fcToRow m.snapshot_id) := by
    rw [List.filter_eq_self]
    intro x hx
    obtain ⟨c, _, hc⟩ := List.mem_map.mp hx
    simp [← hc, fcToRow]
  rw [h1, h2, List.nil_append]

theorem dbGet_dbSave (db : MetadataDB) (m : SnapshotMetadata) :
    dbGet (dbSave db m) m.snapshot_id = some m := by
  unfold dbGet
  rw [dbSave_find?]
  rw [dbSave_fc_filter db m]
  rw [List.map_map]
  have : m.file_changes.map (rowToFc ∘ fcToRow m.snapshot_id) =
      m.file_changes := List.map_id'' (fun c => rfl) m.file_changes
  rw [this]

/-! ### Failure modes of the store

Each public MetadataStore method opens a sqlite3 connection inside a
try/except.  An unreachable or corrupted underlying storage makes the
sqlite3 calls raise sqlite3.Error; the handle records whether the storage
is healthy.  The except clauses (lines 107-109, 159-161, 226-228, 284-286)
determine what each method does when the storage fails. -/

/-- StorageError raised out of MetadataStore.save. -/
inductive StorageError where
  | sqliteError : StorageError
deriving DecidableEq, Repr

/-- A MetadataStore whose underlying storage may be failing. -/
structure StoreHandle where
  db : MetadataDB := {}
  healthy : Bool := true
deriving DecidableEq, Repr

/-- MetadataStore.save (lines 60-109): on sqlite3.Error the except clause
logs and re-raises, so the failure propagates to the caller. -/
def storeSave (h : StoreHandle) (m : SnapshotMetadata) :
    Except StorageError StoreHandle :=
  if h.healthy then .ok { h with db := dbSave h.db m }
  else .error .sqliteError

/-- MetadataStore.get (lines 111-161): on sqlite3.Error the except clause
logs and returns None. -/
def storeGet (h : StoreHandle) (sid : String) : Option SnapshotMetadata :=
  if h.healthy then dbGet h.db sid else none

/-- SQL LIKE with wildcards on both sides: substring containment. -/
def likeSub (hay needle : String) : Bool :=
  decide (needle.data <:+: hay.data)

/-- The json.dumps text of the tags column, used by the LIKE filters of
get_recent and search (values stored here never need escaping beyond
backslash and quote). -/
def tagsJsonText (tags : List String) : String :=
  "[" ++ String.intercalate ", "
      (tags.map (fun t =>
        "\x22" ++
          ⟨t.data.foldr (fun c acc =>
              if c = '\x22' ∨ c = '\\' then '\\' :: c :: acc else c :: acc) []⟩ ++
          "\x22")) ++ "]"

/-- Insertion sort descending by timestamp, modelling ORDER BY timestamp
DESC (the order among equal timestamps is unspecified by SQL; a stable sort
is one allowed outcome). -/
def insertByTsDesc (r : SnapRow) : List SnapRow → List SnapRow
  | [] => [r]
  | x :: xs => if x.timestamp < r.timestamp then r :: x :: xs
               else x :: insertByTsDesc r xs

/-- Rows ordered newest first by timestamp. -/
def sortByTsDesc (l : List SnapRow) : List SnapRow :=
  l.foldr insertByTsDesc []

/-- The SnapshotMetadata rebuilt from a snapshots row and the file_changes
table (shared by get_recent and search). -/
def rowToMeta (db : MetadataDB) (row : SnapRow) : SnapshotMetadata :=
  { snapshot_id := row.snapshot_id, message := row.message,
    timestamp := row.timestamp, author := row.author, tags := row.tags,
    parent_snapshot := row.parent_snapshot, stats := row.stats,
    file_changes :=
      (db.file_changes.filter
          (fun r => r.snapshot_id = row.snapshot_id)).map rowToFc }

/-- MetadataStore.get_recent (lines 163-228): author equality filter, AND of
tag LIKE filters over the JSON text of the tags column, ORDER BY timestamp
DESC, LIMIT; on sqlite3.Error the except clause returns []. -/
def storeGetRecent (h : StoreHandle) (limit : Nat) (author : Option String)
    (tags : Option (List String)) : List SnapshotMetadata :=
  if h.healthy then
    let rows := h.db.snapshots.filter (fun r =>
      (match author with
       | some a => decide (r.author = a)
       | none => true) &&
      (match tags with
       | some ts => ts.all (fun t =>
           likeSub (tagsJsonText r.tags) ("\x22" ++ t ++ "\x22"))
       | none => true))
    ((sortByTsDesc rows).take limit).map (rowToMeta h.db)
  else []

/-- MetadataStore.search (lines 230-286): case-sensitive substring match on
message, author, or the JSON text of tags, newest first, LIMIT; on
sqlite3.Error the except clause returns []. -/
def storeSearch (h : StoreHandle) (query : String) (limit : Nat) :
    List SnapshotMetadata :=
  if h.healthy then
    let rows := h.db.snapshots.filter (fun r =>
      (match r.message with
       | some msg => likeSub msg query
       | none => false) ||
      likeSub r.author query || likeSub (tagsJsonText r.tags) query)
    ((sortByTsDesc rows).take limit).map (rowToMeta h.db)
  else []

/-! ## BackupOrchestrator (src/backup_manager.py)

The engine diff of two snapshot ids is an external collaborator result; it
is passed in as an oracle returning the (added, removed, modified) path
lists that restic diff reports. -/

/-- Output of ResticWrapper.diff_snapshots. -/
structure EngineDiff where
  added : List String := []
  removed : List String := []
  modified : List String := []
deriving DecidableEq, Repr

/-- ModernBackupManager._get_last_snapshot_id (lines 401-406):
snapshots[-1]["id"] of the current listing, or None when it is empty. -/
def getLastSnapshotId (eng : List EngineSnap) : Option String :=
  (eng.getLast?).map (fun s => s.id)

/-- ModernBackupManager._detect_changes (lines 274-319), evaluated against
the engine listing: empty when fewer than two snapshots exist, otherwise
the engine diff of the two most recent snapshots converted to FileChange
values (added, then removed as deleted, then modified, in that order). -/
def detectChanges (eng : List EngineSnap)
    (diffOracle : String → String → EngineDiff) : List FileChange :=
  match getLastSnapshotId eng with
  | none => []
  | some _ =>
      if eng.length < 2 then []
      else
        match eng.get? (eng.length - 2), eng.get? (eng.length - 1) with
        | some prev, some last =>
            let d := diffOracle prev.id last.id
            d.added.map (fun p => { path := p, change_type := "added" }) ++
            d.removed.map (fun p => { path := p, change_type := "deleted" }) ++
            d.modified.map (fun p => { path := p, change_type := "modified" })
        | _, _ => []

/-- ModernBackupManager.snapshot (lines 26-96).  The engine assigns the new
snapshot its id (newId) and the backup call appends it to the listing with
the tags passed on the command line: all_tags = tags + ["message:" + m] once
from snapshot() and once more from ResticWrapper.backup's message handling.
Only after the backup does the code read the parent from the listing.
Returns the reported id, the new listing, and the new database. -/
def managerSnapshot (eng : List EngineSnap) (db : MetadataDB)
    (newId : String) (message : Option String) (tags : List String)
    (now : Int) (stats : List (String × Int))
    (diffOracle : String → String → EngineDiff) :
    String × List EngineSnap × MetadataDB :=
  let msgTags := match message with
    | some m => ["message:" ++ m]
    | none => []
  let allTags := tags ++ msgTags
  let eng' := eng ++ [{ id := newId, tags := allTags ++ msgTags }]
  let parent := getLastSnapshotId eng'
  let fileChanges := detectChanges eng' diffOracle
  let metadata : SnapshotMetadata :=
    { snapshot_id := newId, message := message, timestamp := now,
      tags := tags, file_changes := fileChanges, parent_snapshot := parent,
      stats := stats }
  (newId, eng', dbSave db metadata)

/-- The files1 / files2 dict comprehension of ModernBackupManager.diff
(lines 165-166): path-keyed, last write wins. -/
def buildFilesDict (l : List FileChange) : List (String × FileChange) :=
  l.foldl (fun d c => dictUpsert d c.path c) []

/-- The change-list comparison of ModernBackupManager.diff (lines 163-180)
on two metadata values: paths of the second snapshot's dict missing from
the first are reported with their stored FileChange entry, shared paths
with differing checksums as modified, and paths of the first dict missing
from the second as deleted. -/
def diffMeta (m1 m2 : SnapshotMetadata) : List FileChange :=
  ((buildFilesDict m2.file_changes).filterMap (fun pc =>
      match dictLookup (buildFilesDict m1.file_changes) pc.1 with
      | none => some pc.2
      | some c1 =>
          if c1.checksum ≠ pc.2.checksum then
            some { path := pc.1, change_type := "modified" }
          else none)) ++
  ((buildFilesDict m1.file_changes).filterMap (fun pc =>
      match dictLookup (buildFilesDict m2.file_changes) pc.1 with
      | none => some { path := pc.1, change_type := "deleted" }
      | some _ => none))

/-- ModernBackupManager.diff (lines 154-184) against persisted snapshots
addressed by their identifiers: both are fetched from the store; when one
is missing the method logs and returns []. -/
def managerDiff (db : MetadataDB) (id1 id2 : String) : List FileChange :=
  match dbGet db id1, dbGet db id2 with
  | some m1, some m2 => diffMeta m1 m2
  | _, _ => []

/-- Paths of the diff output entries whose change_type is the given one. -/
def pathsWithType (out : List FileChange) (ty : String) : List String :=
  (out.filter (fun c => c.change_type = ty)).map (fun c => c.path)

/-- The loop of the refs branch of ModernBackupManager.forget
(lines 230-240): resolve each ref in order, collecting the ids; an
exception aborts the loop. -/
def collectResolved (eng : List EngineSnap) : List String → Option (List String)
  | [] => some []
  | r :: rs =>
      match resolveSnapshotRef eng r with
      | .ok id => (collectResolved eng rs).map (fun ids => id :: ids)
      | .error _ => none

/-- The refs branch of ModernBackupManager.forget (lines 228-240, taken when
refs is non-empty): each ref is resolved and reported as removed, but the
engine call is a pass statement regardless of dry_run and no metadata is
deleted; an exception from resolution is caught (lines 263-265) and []
returned.  Returns the reported ids with the engine listing and database
afterwards. -/
def forgetWithRefs (eng : List EngineSnap) (db : MetadataDB)
    (refs : List String) (_dryRun : Bool) :
    List String × List EngineSnap × MetadataDB :=
  match collectResolved eng refs with
  | some ids => (ids, eng, db)
  | none => ([], eng, db)

/-! ## FileMonitor auto-snapshot evaluation (src/monitor.py)

Wall-clock instants and intervals are integers (seconds).  Whether the
orchestrator's snapshot call would succeed is passed in as snapOk; the
model follows the control flow of _check_auto_snapshot /
_create_auto_snapshot for both outcomes. -/

/-- One value of the _changes dict: the event record stored per path. -/
structure PendingChange where
  event_type : String
  timestamp : Int
deriving DecidableEq, Repr

/-- MonitorConfig from src/monitor.py (intervals in seconds). -/
structure MonitorCfg where
  auto_snapshot_threshold : Nat := 50
  auto_snapshot_interval : Int := 3600
  debounce_seconds : Int := 30
deriving DecidableEq, Repr

/-- The mutable monitor bookkeeping guarded by _change_lock. -/
structure MonitorState where
  changes : List (String × PendingChange) := []
  last_change_time : Option Int := none
  last_auto_snapshot : Option Int := none
deriving DecidableEq, Repr

/-- FileMonitor._record_change (lines 107-115): last-write-wins insert
keyed by path, stamping last_change_time. -/
def recordChange (st : MonitorState) (path : String) (eventType : String)
    (now : Int) : MonitorState :=
  { st with
    changes := dictUpsert st.changes path
      { event_type := eventType, timestamp := now },
    last_change_time := some now }

/-- FileMonitor._create_auto_snapshot (lines 172-203): on success the
pending changes are cleared and last_auto_snapshot set to now; on failure
the except clause logs and deliberately leaves the changes in place. -/
def createAutoSnapshot (st : MonitorState) (now : Int) (snapOk : Bool) :
    MonitorState :=
  if snapOk then
    { st with changes := [], last_auto_snapshot := some now }
  else st

/-- The should_snapshot decision of _check_auto_snapshot (lines 146-164),
first matching condition wins: change threshold; else, when a previous
auto snapshot exists, the elapsed interval; else the initial-snapshot
condition.  (The reason string only feeds the log message.) -/
def shouldAutoSnapshot (cfg : MonitorCfg) (st : MonitorState) (now : Int) :
    Bool :=
  if st.changes.length ≥ cfg.auto_snapshot_threshold then true
  else
    match st.last_auto_snapshot with
    | some las => decide (now - las ≥ cfg.auto_snapshot_interval)
    | none => decide (st.changes.length > 0)

/-- FileMonitor._check_auto_snapshot (lines 132-170).  Returns the state
afterwards and the number of snapshot requests issued (0 or 1). -/
def checkAutoSnapshot (cfg : MonitorCfg) (st : MonitorState) (now : Int)
    (snapOk : Bool) : MonitorState × Nat :=
  if st.changes.isEmpty ∨ st.last_change_time = none then (st, 0)
  else
    match st.last_change_time with
    | none => (st, 0)
    | some lct =>
        if now - lct < cfg.debounce_seconds then (st, 0)
        else if shouldAutoSnapshot cfg st now then
          (createAutoSnapshot st now snapOk, 1)
        else (st, 0)

/-- A sequence of _record_change calls: each event is (path, event_type,
instant). -/
def recordAll (st : MonitorState) (evs : List (String × String × Int)) :
    MonitorState :=
  evs.foldl (fun s e => recordChange s e.1 e.2.1 e.2.2) st

/-! ## ScheduledBackupService (src/monitor.py lines 300-351)

A timedelta is an integer number of seconds. -/

/-- ASCII lowercasing of one character, as Python str.lower() does for the
ASCII range used by schedule strings. -/
def asciiLower (c : Char) : Char :=
  if 65 ≤ c.toNat ∧ c.toNat ≤ 90 then Char.ofNat (c.toNat + 32) else c

/-- Python str.lower() over ASCII. -/
def pyLower (s : String) : String := ⟨s.data.map asciiLower⟩

/-- ScheduledBackupService._parse_schedule (lines 329-351): strip and
lowercase, then dispatch on the final unit letter (str.endswith of a
single-character suffix) and int() the rest (schedule[:-1]). -/
def parseSchedule (schedule : String) : Option Int :=
  match (pyLower (pyStrip schedule)).data.getLast? with
  | none => none
  | some u =>
      if u = 'h' then
        (pyInt ⟨(pyLower (pyStrip schedule)).data.dropLast⟩).map
          (fun n => n * 3600)
      else if u = 'm' then
        (pyInt ⟨(pyLower (pyStrip schedule)).data.dropLast⟩).map
          (fun n => n * 60)
      else if u = 'd' then
        (pyInt ⟨(pyLower (pyStrip schedule)).data.dropLast⟩).map
          (fun n => n * 86400)
      else none

/-- ScheduledBackupService._schedule_loop (lines 300-327) over a finite
trace of wake-up instants: an unparseable schedule makes the loop exit at
once (no iterations, no backups); otherwise next_backup starts at
start + interval and each wake-up at or past it fires a scheduled backup
and recomputes next_backup = now + interval (also after a failed attempt).
Returns the instants at which backups were requested. -/
def scheduleLoop (schedule : String) (start : Int) (wakeups : List Int) :
    List Int :=
  match parseSchedule schedule with
  | none => []
  | some interval =>
      (wakeups.foldl
        (fun (acc : List Int × Int) now =>
          if now ≥ acc.2 then (acc.1 ++ [now], now + interval) else acc)
        ([], start + interval)).1

/-! ## Reference-resolution grammar as the specification states it -/

/-- Decimal value of a digit list. -/
def decDigitsVal (l : List Char) : Nat :=
  l.foldl (fun a c => a * 10 + digitVal c) 0

/-- Modelled from claim C2's words: the five-rule grammar in exact
precedence, with rule 3 applying to HEAD~N for a non-negative integer N
(decimal digits) and every other HEAD~-prefixed string falling through to
the tag lookup of rule 4 and the verbatim fallback of rule 5. -/
def claimRefSpec (eng : List EngineSnap) (ref : String) :
    Except ResticErr String :=
  if strStarts ref "snap" then .ok ref
  else if ref = "latest" ∨ ref = "HEAD" then
    match eng.getLast? with
    | none => .error .noSnapshots
    | some s => .ok s.id
  else if strStarts ref "HEAD~" ∧ (strDrop ref 5).data ≠ [] ∧
      (strDrop ref 5).data.all isDecDigit then
    let n := decDigitsVal (strDrop ref 5).data
    if eng.length ≤ n then .error (.notEnough ref)
    else
      match eng.get? (eng.length - 1 - n) with
      | some s => .ok s.id
      | none => .error .indexError
  else
    match (eng.filter (fun s => ref ∈ s.tags)).getLast? with
    | some s => .ok s.id
    | none => .ok ref

/-- The amended grammar: rule 3 claims every ref that starts with HEAD~.
A suffix accepted by Python int() with value n ≥ 0 selects the snapshot n
positions before the newest (NotFound when n ≥ length); a negative n
selects position -n - 1 from the oldest (IndexError when out of range); a
suffix int() rejects fails with an invalid-reference error and never
reaches the tag lookup. -/
def amendedRefSpec (eng : List EngineSnap) (ref : String) :
    Except ResticErr String :=
  if strStarts ref "snap" then .ok ref
  else if ref = "latest" ∨ ref = "HEAD" then
    match eng.getLast? with
    | none => .error .noSnapshots
    | some s => .ok s.id
  else if strStarts ref "HEAD~" then
    match pyInt (strDrop ref 5) with
    | none => .error (.invalidRef ref)
    | some n =>
        if 0 ≤ n then
          if (eng.length : Int) ≤ n then .error (.notEnough ref)
          else
            match eng.get? (eng.length - 1 - n.toNat) with
            | some s => .ok s.id
            | none => .error .indexError
        else
          match eng.get? (-n - 1).toNat with
          | some s => .ok s.id
          | none => .error .indexError
  else
    match (eng.filter (fun s => ref ∈ s.tags)).getLast? with
    | some s => .ok s.id
    | none => .ok ref

theorem pyIndex_neg_of_nonneg (eng : List EngineSnap) (n : Int)
    (hn : 0 ≤ n) (hlt : n < (eng.length : Int)) :
    pyIndex eng (-(n + 1)) = eng.get? (eng.length - 1 - n.toNat) := by
  unfold pyIndex
  have h2 : ¬ (0 ≤ -(n + 1)) := by omega
  rw [if_neg h2]
  have h3 : 0 ≤ (eng.length : Int) + -(n + 1) := by omega
  rw [if_pos h3]
  have h4 : ((eng.length : Int) + -(n + 1)).toNat = eng.length - 1 - n.toNat := by
    omega
  rw [h4]

/-- C2 counterexample: with one snapshot tagged HEAD~x, the grammar as the
claim states it resolves the ref HEAD~x by tag lookup (rule 4), but
resolve_snapshot_ref raises an invalid-reference error because every
HEAD~-prefixed ref is consumed by the HEAD~N branch. -/
theorem resolveRef_claim_counterexample :
    claimRefSpec [{ id := "id1", tags := ["HEAD~x"] }] "HEAD~x" =
        .ok "id1" ∧
      resolveSnapshotRef [{ id := "id1", tags := ["HEAD~x"] }] "HEAD~x" =
        .error (.invalidRef "HEAD~x") := by
  exact ⟨rfl, rfl⟩

/-- C2 (amended): resolve evaluates the grammar in exact precedence with
rule 3 amended to consume every HEAD~-prefixed ref: (1) a ref matching the
opaque-identifier prefix heuristic is returned verbatim; (2) latest or HEAD
returns the newest snapshot and fails with NotFound on an empty listing;
(3) a HEAD~ ref whose suffix Python int() accepts as n ≥ 0 returns the
snapshot n positions before the newest, failing with NotFound when
n ≥ length, a negative n indexes from the oldest end (IndexError out of
range), and a suffix int() rejects fails with an invalid-reference error,
never reaching tag lookup; (4) otherwise the newest snapshot carrying the
ref as a tag is returned; (5) otherwise the input is returned unchanged. -/
theorem resolveRef_follows_amended_grammar (eng : List EngineSnap)
    (ref : String) : resolveSnapshotRef eng ref = amendedRefSpec eng ref := by
  unfold resolveSnapshotRef amendedRefSpec
  by_cases h1 : strStarts ref "snap" = true
  · rw [if_pos h1, if_pos h1]
  · rw [if_neg h1, if_neg h1]
    by_cases h2 : ref = "latest" ∨ ref = "HEAD"
    · rw [if_pos h2, if_pos h2]
    · rw [if_neg h2, if_neg h2]
      by_cases h3 : strStarts ref "HEAD~" = true
      · rw [if_pos h3, if_pos h3]
        cases hp : pyInt (strDrop ref 5) with
        | none => rfl
        | some n =>
            dsimp only
            by_cases hn : 0 ≤ n
            · rw [if_pos hn]
              by_cases hl : (eng.length : Int) ≤ n
              · rw [if_pos hl, if_pos hl]
              · rw [if_neg hl, if_neg hl,
                  pyIndex_neg_of_nonneg eng n hn (lt_of_not_ge hl)]
            · rw [if_neg hn]
              have hl : ¬ ((eng.length : Int) ≤ n) := by omega
              rw [if_neg hl]
              have hix : pyIndex eng (-(n + 1)) = eng.get? (-n - 1).toNat := by
                unfold pyIndex
                have h4 : 0 ≤ -(n + 1) := by omega
                rw [if_pos h4]
                congr 1
                omega
              rw [hix]
      · rw [if_neg h3, if_neg h3]

/-! ## Claim theorems -/

/-- C1 (code-bug exhibit): whatever the engine listing held before the
snapshot, the metadata persisted by the orchestrator's snapshot operation
carries parentSnapshot equal to the new snapshot's own identifier, because
_get_last_snapshot_id reads the listing only after the backup appended the
new snapshot.  In particular the first snapshot's parentSnapshot is not
absent and no snapshot records its true predecessor. -/
theorem snapshot_parent_is_own_id (eng : List EngineSnap) (db : MetadataDB)
    (newId : String) (message : Option String) (tags : List String)
    (now : Int) (stats : List (String × Int))
    (diffOracle : String → String → EngineDiff) :
    (dbGet (managerSnapshot eng db newId message tags now stats
        diffOracle).2.2 newId).map (fun m => m.parent_snapshot) =
      some (some newId) := by
  unfold managerSnapshot
  dsimp only
  have h := dbGet_dbSave db
    { snapshot_id := newId, message := message, timestamp := now,
      tags := tags,
      file_changes := detectChanges
        (eng ++ [{ id := newId,
                   tags := (tags ++ (match message with
                             | some m => ["message:" ++ m]
                             | none => [])) ++ (match message with
                             | some m => ["message:" ++ m]
                             | none => []) }]) diffOracle,
      parent_snapshot := getLastSnapshotId
        (eng ++ [{ id := newId,
                   tags := (tags ++ (match message with
                             | some m => ["message:" ++ m]
                             | none => [])) ++ (match message with
                             | some m => ["message:" ++ m]
                             | none => []) }]),
      stats := stats }
  rw [h]
  unfold getLastSnapshotId
  rw [List.getLast?_concat]
  rfl

/-- C3: when the store's save succeeds, a get of the saved snapshot's
identifier returns a metadata value equal to the one saved, including its
file-change list. -/
theorem store_save_get_roundTrip (h h' : StoreHandle) (m : SnapshotMetadata)
    (hsave : storeSave h m = .ok h') : storeGet h' m.snapshot_id = some m := by
  unfold storeSave at hsave
  by_cases hh : h.healthy = true
  · rw [if_pos hh] at hsave
    have h2 : ({ h with db := dbSave h.db m } : StoreHandle) = h' :=
      Except.ok.inj hsave
    subst h2
    unfold storeGet
    rw [if_pos hh]
    exact dbGet_dbSave h.db m
  · rw [if_neg hh] at hsave
    exact absurd hsave (by simp)

/-- C3 witness. -/
theorem store_save_get_roundTrip_witness :
    storeGet
        { db := dbSave ({} : MetadataDB)
            { snapshot_id := "s1", message := some "hello", timestamp := 5,
              author := "ann", tags := ["t1"], file_changes := [],
              parent_snapshot := none, stats := [("files_new", 3)] },
          healthy := true }
        "s1" =
      some { snapshot_id := "s1", message := some "hello", timestamp := 5,
             author := "ann", tags := ["t1"], file_changes := [],
             parent_snapshot := none, stats := [("files_new", 3)] } :=
  store_save_get_roundTrip { db := {}, healthy := true } _ _ rfl

/-- C4: saving twice under one identifier leaves exactly the second
file-change list in the store: the file_changes rows keyed by the
identifier are precisely the second metadata's rows (no rows of the first
save remain and none are duplicated), and get returns the second value. -/
theorem store_upsert_replaces (h0 h1 h2 : StoreHandle)
    (m1 m2 : SnapshotMetadata) (hid : m1.snapshot_id = m2.snapshot_id)
    (hs1 : storeSave h0 m1 = .ok h1) (hs2 : storeSave h1 m2 = .ok h2) :
    h2.db.file_changes.filter (fun r => r.snapshot_id = m2.snapshot_id) =
        m2.file_changes.map (fcToRow m2.snapshot_id) ∧
      storeGet h2 m2.snapshot_id = some m2 := by
  unfold storeSave at hs1 hs2
  by_cases hh : h0.healthy = true
  · rw [if_pos hh] at hs1
    have e1 : ({ h0 with db := dbSave h0.db m1 } : StoreHandle) = h1 :=
      Except.ok.inj hs1
    have hh1 : h1.healthy = true := by rw [← e1]; exact hh
    rw [if_pos hh1] at hs2
    have e2 : ({ h1 with db := dbSave h1.db m2 } : StoreHandle) = h2 :=
      Except.ok.inj hs2
    constructor
    · rw [← e2]
      exact dbSave_fc_filter h1.db m2
    · rw [← e2]
      unfold storeGet
      rw [if_pos hh1]
      exact dbGet_dbSave h1.db m2
  · rw [if_neg hh] at hs1
    exact absurd hs1 (by simp)

/-- First saved value of the C4 witness scenario. -/
def c4meta1 : SnapshotMetadata :=
  { snapshot_id := "s1",
    file_changes := [{ path := "old", change_type := "added" }] }

/-- Second saved value of the C4 witness scenario, same identifier but a
different file-change list. -/
def c4meta2 : SnapshotMetadata :=
  { snapshot_id := "s1",
    file_changes := [{ path := "new", change_type := "modified" }] }

/-- Store handle after both C4 witness saves. -/
def c4handle : StoreHandle :=
  { db := dbSave (dbSave {} c4meta1) c4meta2, healthy := true }

/-- C4 witness: the same identifier saved with two different file-change
lists keeps only the second list. -/
theorem store_upsert_replaces_witness :
    c4handle.db.file_changes.filter (fun r => r.snapshot_id = "s1") =
        [{ snapshot_id := "s1", path := "new", change_type := "modified",
           size_bytes := none, checksum := none }] ∧
      storeGet c4handle "s1" = some c4meta2 :=
  store_upsert_replaces ⟨{}, true⟩ ⟨dbSave {} c4meta1, true⟩ c4handle
    c4meta1 c4meta2 rfl rfl rfl

/-- C7: when the underlying storage fails, save raises a StorageError to
the caller while get returns None and get_recent and search return empty
lists instead of raising. -/
theorem store_failure_modes (h : StoreHandle) (m : SnapshotMetadata)
    (sid q : String) (lim : Nat) (author : Option String)
    (tagFilters : Option (List String)) (hbad : h.healthy = false) :
    storeSave h m = .error .sqliteError ∧ storeGet h sid = none ∧
      storeGetRecent h lim author tagFilters = [] ∧
      storeSearch h q lim = [] := by
  unfold storeSave storeGet storeGetRecent storeSearch
  rw [hbad]
  exact ⟨rfl, rfl, rfl, rfl⟩

/-- C7 witness. -/
theorem store_failure_modes_witness :
    storeSave { db := {}, healthy := false } { snapshot_id := "s1" } =
        .error .sqliteError ∧
      storeGet { db := {}, healthy := false } "s1" = none ∧
      storeGetRecent { db := {}, healthy := false } 10 none none = [] ∧
      storeSearch { db := {}, healthy := false } "q" 50 = [] :=
  store_failure_modes { db := {}, healthy := false } _ "s1" "q" 10 none none
    rfl

theorem collectResolved_spec (eng : List EngineSnap) (refs : List String)
    (hall : ∀ r ∈ refs, ∃ id, resolveSnapshotRef eng r = .ok id) :
    ∃ ids, collectResolved eng refs = some ids ∧
      List.Forall₂ (fun r id => resolveSnapshotRef eng r = .ok id) refs ids := by
  induction refs with
  | nil => exact ⟨[], rfl, List.Forall₂.nil⟩
  | cons r rs ih =>
      obtain ⟨id, hid⟩ := hall r (List.mem_cons_self r rs)
      obtain ⟨ids, hc, hf⟩ :=
        ih (fun x hx => hall x (List.mem_cons_of_mem r hx))
      refine ⟨id :: ids, ?_, List.Forall₂.cons hid hf⟩
      unfold collectResolved
      rw [hid, hc]
      rfl

/-- C10: for a non-empty refs list whose entries all resolve, forget
returns exactly the resolved identifier of each ref, leaves the engine
listing and the metadata database unchanged, and behaves identically for
both values of dry_run. -/
theorem forget_refs_reports_without_removing (eng : List EngineSnap)
    (db : MetadataDB) (refs : List String) (dryRun : Bool)
    (hne : refs ≠ [])
    (hall : ∀ r ∈ refs, ∃ id, resolveSnapshotRef eng r = .ok id) :
    ∃ ids,
      forgetWithRefs eng db refs dryRun = (ids, eng, db) ∧
      List.Forall₂ (fun r id => resolveSnapshotRef eng r = .ok id) refs ids ∧
      forgetWithRefs eng db refs true = forgetWithRefs eng db refs false := by
  obtain ⟨ids, hc, hf⟩ := collectResolved_spec eng refs hall
  refine ⟨ids, ?_, hf, rfl⟩
  unfold forgetWithRefs
  rw [hc]

/-- C10 witness: forgetting ref latest reports the resolved id and changes
nothing. -/
theorem forget_refs_witness :
    ∃ ids,
      forgetWithRefs [{ id := "abc1", tags := [] }]
          ({ snapshots := [], file_changes := [] } : MetadataDB)
          ["latest"] true =
        (ids, [{ id := "abc1", tags := [] }],
          ({ snapshots := [], file_changes := [] } : MetadataDB)) ∧
      List.Forall₂
        (fun r id =>
          resolveSnapshotRef [{ id := "abc1", tags := [] }] r = .ok id)
        ["latest"] ids ∧
      forgetWithRefs [{ id := "abc1", tags := [] }]
          ({ snapshots := [], file_changes := [] } : MetadataDB)
          ["latest"] true =
        forgetWithRefs [{ id := "abc1", tags := [] }]
          ({ snapshots := [], file_changes := [] } : MetadataDB)
          ["latest"] false :=
  forget_refs_reports_without_removing _ _ _ true (by simp)
    (fun r hr => by
      rw [List.mem_singleton.mp hr]
      exact ⟨"abc1", rfl⟩)

theorem dictUpsert_fresh {κ α : Type} [DecidableEq κ]
    (d : List (κ × α)) (k : κ) (v : α) (h : k ∉ dictKeys d) :
    dictUpsert d k v = d ++ [(k, v)] := by
  unfold dictUpsert
  rw [if_neg]
  intro hany
  rw [List.any_eq_true] at hany
  obtain ⟨p, hp, hpk⟩ := hany
  simp only [decide_eq_true_eq] at hpk
  exact h (hpk ▸ List.mem_map_of_mem (fun p => p.1) hp)

theorem recordAll_las (evs : List (String × String × Int)) :
    ∀ st : MonitorState,
      (recordAll st evs).last_auto_snapshot = st.last_auto_snapshot := by
  induction evs with
  | nil => intro st; rfl
  | cons e rest ih =>
      intro st
      exact ih (recordChange st e.1 e.2.1 e.2.2)

theorem recordAll_lct (evs : List (String × String × Int)) :
    ∀ st : MonitorState, evs ≠ [] →
      ∃ e, e ∈ evs ∧ (recordAll st evs).last_change_time = some e.2.2 := by
  induction evs with
  | nil => intro st h; exact absurd rfl h
  | cons e rest ih =>
      intro st _
      by_cases hr : rest = []
      · subst hr
        exact ⟨e, List.mem_singleton.mpr rfl, rfl⟩
      · obtain ⟨e', he', hlct⟩ := ih (recordChange st e.1 e.2.1 e.2.2) hr
        exact ⟨e', List.mem_cons_of_mem e he', hlct⟩

theorem recordAll_changes_length (evs : List (String × String × Int)) :
    ∀ st : MonitorState,
      (evs.map (fun e => e.1)).Nodup →
      (∀ e ∈ evs, e.1 ∉ dictKeys st.changes) →
      (recordAll st evs).changes.length = st.changes.length + evs.length := by
  induction evs with
  | nil => intro st _ _; rfl
  | cons e rest ih =>
      intro st hnodup hfresh
      have hek : e.1 ∉ dictKeys st.changes :=
        hfresh e (List.mem_cons_self e rest)
      have hstep : (recordChange st e.1 e.2.1 e.2.2).changes =
          st.changes ++ [(e.1, { event_type := e.2.1, timestamp := e.2.2 })] := by
        unfold recordChange
        exact dictUpsert_fresh st.changes e.1 _ hek
      have hnodup' : (rest.map (fun e => e.1)).Nodup :=
        (List.nodup_cons.mp (by simpa using hnodup)).2
      have hhead : e.1 ∉ rest.map (fun e => e.1) :=
        (List.nodup_cons.mp (by simpa using hnodup)).1
      have hfresh' : ∀ x ∈ rest,
          x.1 ∉ dictKeys (recordChange st e.1 e.2.1 e.2.2).changes := by
        intro x hx
        rw [hstep]
        unfold dictKeys
        rw [List.map_append, List.mem_append]
        rintro (hmem | hmem)
        · exact hfresh x (List.mem_cons_of_mem e hx) hmem
        · rw [List.map_singleton, List.mem_singleton] at hmem
          exact hhead (hmem ▸ List.mem_map_of_mem (fun e => e.1) hx)
      have := ih (recordChange st e.1 e.2.1 e.2.2) hnodup' hfresh'
      rw [recordAll, List.foldl_cons, ← recordAll, this, hstep,
        List.length_append]
      simp [Nat.add_assoc, Nat.add_comm 1 rest.length]

theorem shouldAutoSnapshot_mono (cfg : MonitorCfg) (st : MonitorState)
    (now now' : Int) (h : shouldAutoSnapshot cfg st now = true)
    (hle : now ≤ now') : shouldAutoSnapshot cfg st now' = true := by
  unfold shouldAutoSnapshot at h ⊢
  by_cases hthr : st.changes.length ≥ cfg.auto_snapshot_threshold
  · rw [if_pos hthr]
  · rw [if_neg hthr] at h ⊢
    cases hlas : st.last_auto_snapshot with
    | none => rw [hlas] at h; exact h
    | some las =>
        rw [hlas] at h
        have hint : now - las ≥ cfg.auto_snapshot_interval :=
          of_decide_eq_true h
        exact decide_eq_true (by omega)

/-- C6: whenever an evaluation of the coalescer triggers a snapshot and the
snapshot call fails, the state afterwards is exactly the state before (the
pending change set keeps every entry and last_auto_snapshot is untouched),
and every later evaluation triggers a snapshot attempt again. -/
theorem coalescer_failure_preserves_and_retries (cfg : MonitorCfg)
    (st : MonitorState) (now now' : Int) (retryOk : Bool)
    (htrig : (checkAutoSnapshot cfg st now false).2 = 1)
    (hle : now ≤ now') :
    (checkAutoSnapshot cfg st now false).1 = st ∧
      (checkAutoSnapshot cfg st now' retryOk).2 = 1 := by
  unfold checkAutoSnapshot at htrig
  by_cases hA : st.changes.isEmpty = true ∨ st.last_change_time = none
  · rw [if_pos hA] at htrig
    exact absurd htrig (by simp)
  · rw [if_neg hA] at htrig
    have hlne : st.last_change_time ≠ none := fun hc => hA (Or.inr hc)
    obtain ⟨t, hlct⟩ := Option.ne_none_iff_exists'.mp hlne
    rw [hlct] at htrig
    dsimp only at htrig
    by_cases hdeb : now - t < cfg.debounce_seconds
    · rw [if_pos hdeb] at htrig
      exact absurd htrig (by simp)
    · rw [if_neg hdeb] at htrig
      by_cases hshould : shouldAutoSnapshot cfg st now = true
      · constructor
        · unfold checkAutoSnapshot
          rw [if_neg hA, hlct]
          dsimp only
          rw [if_neg hdeb, if_pos hshould]
          unfold createAutoSnapshot
          rfl
        · unfold checkAutoSnapshot
          rw [if_neg hA, hlct]
          dsimp only
          have hdeb' : ¬ (now' - t < cfg.debounce_seconds) := by omega
          rw [if_neg hdeb',
            if_pos (shouldAutoSnapshot_mono cfg st now now' hshould hle)]
      · rw [if_neg hshould] at htrig
        exact absurd htrig (by simp)

/-- Monitor configuration of the C6 witness: threshold one, debounce 0. -/
def c6cfg : MonitorCfg :=
  { auto_snapshot_threshold := 1, auto_snapshot_interval := 3600,
    debounce_seconds := 0 }

/-- Monitor state of the C6 witness: one pending change at instant 0. -/
def c6state : MonitorState := recordChange {} "a" "modified" 0

/-- C6 witness: one pending change on a fresh monitor triggers, the failed
attempt leaves the state intact, and the next tick triggers again. -/
theorem coalescer_failure_witness :
    (checkAutoSnapshot c6cfg c6state 0 false).1 = c6state ∧
      (checkAutoSnapshot c6cfg c6state 1 true).2 = 1 :=
  coalescer_failure_preserves_and_retries c6cfg c6state 0 1 true (by decide)
    (by omega)

/-- Monitor configuration of the C5 scenario: threshold 5, debounce 0. -/
def c5cfg : MonitorCfg :=
  { auto_snapshot_threshold := 5, auto_snapshot_interval := 3600,
    debounce_seconds := 0 }

/-- Four change events on distinct paths at instant 0. -/
def c5evs4 : List (String × String × Int) :=
  [("a", ("modified", 0)), ("b", ("modified", 0)), ("c", ("modified", 0)),
    ("d", ("modified", 0))]

/-- Five change events on distinct paths at instant 0. -/
def c5evs5 : List (String × String × Int) :=
  ("e", ("created", 0)) :: c5evs4

/-- C5 counterexample: on a fresh monitor (threshold 5, debounce 0, no
prior auto snapshot) four distinct-path change events and one evaluation
already trigger a snapshot request, through the initial-snapshot rule
(lines 161-164), contradicting the claim that four events trigger none. -/
theorem coalescer_four_events_counterexample :
    (checkAutoSnapshot c5cfg (recordAll {} c5evs4) 0 true).2 = 1 := by
  decide

/-- C5 (amended): with threshold 5 and debounce 0, five distinct-path
change events followed by an evaluation past the debounce window trigger
exactly one snapshot request and clear the pending change set; four such
events trigger no request provided a prior auto snapshot exists and the
auto-snapshot interval has not yet elapsed since it (on a fresh monitor,
four events already trigger an initial auto snapshot). -/
theorem coalescer_threshold_amended :
    (∀ (evs : List (String × String × Int)) (now iv : Int),
       evs.length = 5 → (evs.map (fun e => e.1)).Nodup →
       (∀ e ∈ evs, e.2.2 ≤ now) →
       checkAutoSnapshot ⟨5, iv, 0⟩ (recordAll {} evs) now true =
         ({ recordAll {} evs with
            changes := [], last_auto_snapshot := some now }, 1)) ∧
    (∀ (evs : List (String × String × Int)) (now iv las : Int),
       evs.length = 4 → (evs.map (fun e => e.1)).Nodup →
       (∀ e ∈ evs, e.2.2 ≤ now) → now - las < iv →
       checkAutoSnapshot ⟨5, iv, 0⟩
           (recordAll { last_auto_snapshot := some las } evs) now true =
         (recordAll { last_auto_snapshot := some las } evs, 0)) := by
  constructor
  · intro evs now iv hlen hnodup htimes
    have hclen : (recordAll {} evs).changes.length = 5 := by
      rw [recordAll_changes_length evs {} hnodup (by intro e _; simp [dictKeys])]
      simpa using hlen
    have hne : evs ≠ [] := by intro h; rw [h] at hlen; simp at hlen
    obtain ⟨e, he, hlct⟩ := recordAll_lct evs {} hne
    have hA : ¬ ((recordAll {} evs).changes.isEmpty = true ∨
        (recordAll {} evs).last_change_time = none) := by
      rintro (h | h)
      · rw [List.isEmpty_iff] at h
        rw [h] at hclen
        simp at hclen
      · rw [hlct] at h
        exact Option.noConfusion h
    unfold checkAutoSnapshot
    rw [if_neg hA, hlct]
    dsimp only
    have hdeb : ¬ (now - e.2.2 < (0 : Int)) := by
      have := htimes e he
      omega
    rw [if_neg hdeb]
    have hshould : shouldAutoSnapshot ⟨5, iv, 0⟩
        (recordAll {} evs) now = true := by
      unfold shouldAutoSnapshot
      rw [if_pos (by rw [hclen])]
    rw [if_pos hshould]
    unfold createAutoSnapshot
    rfl
  · intro evs now iv las hlen hnodup htimes hint
    have hclen : (recordAll { last_auto_snapshot := some las } evs
        ).changes.length = 4 := by
      rw [recordAll_changes_length evs _ hnodup (by intro e _; simp [dictKeys])]
      simpa using hlen
    have hne : evs ≠ [] := by intro h; rw [h] at hlen; simp at hlen
    obtain ⟨e, he, hlct⟩ :=
      recordAll_lct evs { last_auto_snapshot := some las } hne
    have hA : ¬ ((recordAll { last_auto_snapshot := some las } evs
          ).changes.isEmpty = true ∨
        (recordAll { last_auto_snapshot := some las } evs
          ).last_change_time = none) := by
      rintro (h | h)
      · rw [List.isEmpty_iff] at h
        rw [h] at hclen
        simp at hclen
      · rw [hlct] at h
        exact Option.noConfusion h
    unfold checkAutoSnapshot
    rw [if_neg hA, hlct]
    dsimp only
    have hdeb : ¬ (now - e.2.2 < (0 : Int)) := by
      have := htimes e he
      omega
    rw [if_neg hdeb]
    have hshould : shouldAutoSnapshot ⟨5, iv, 0⟩
        (recordAll { last_auto_snapshot := some las } evs) now = false := by
      unfold shouldAutoSnapshot
      rw [if_neg (by rw [hclen]; dsimp only; omega)]
      rw [recordAll_las]
      dsimp only
      exact decide_eq_false (by omega)
    rw [hshould]
    rfl

/-- C5 witness: five concrete events trigger once and clear; four concrete
events with a fresh prior auto snapshot trigger nothing. -/
theorem coalescer_threshold_witness :
    checkAutoSnapshot ⟨5, 3600, 0⟩ (recordAll {} c5evs5) 0 true =
      ({ recordAll {} c5evs5 with
         changes := [], last_auto_snapshot := some 0 }, 1) ∧
    checkAutoSnapshot ⟨5, 3600, 0⟩
        (recordAll { last_auto_snapshot := some 0 } c5evs4) 0 true =
      (recordAll { last_auto_snapshot := some 0 } c5evs4, 0) :=
  ⟨coalescer_threshold_amended.1 c5evs5 0 3600 rfl (by decide)
      (by decide),
    coalescer_threshold_amended.2 c5evs4 0 3600 0 rfl (by decide)
      (by decide) (by decide)⟩

theorem dictLookup_none_iff {κ α : Type} [DecidableEq κ]
    (d : List (κ × α)) (k : κ) :
    dictLookup d k = none ↔ k ∉ dictKeys d := by
  unfold dictLookup dictKeys
  rw [Option.map_eq_none', List.find?_eq_none]
  constructor
  · intro h hk
    rw [List.mem_map] at hk
    obtain ⟨p, hp, hpk⟩ := hk
    exact h p hp (by simp [hpk])
  · intro h p hp hpk
    simp only [decide_eq_true_eq] at hpk
    exact h (List.mem_map.mpr ⟨p, hp, hpk⟩)

theorem dictKeys_exists_val {κ α : Type} (d : List (κ × α)) (x : κ)
    (h : x ∈ dictKeys d) : ∃ v, (x, v) ∈ d := by
  unfold dictKeys at h
  rw [List.mem_map] at h
  obtain ⟨p, hp, hpk⟩ := h
  exact ⟨p.2, by rw [← hpk]; simpa using hp⟩

theorem buildFilesDict_keys (l : List FileChange) (x : String) :
    x ∈ dictKeys (buildFilesDict l) ↔ x ∈ l.map (fun c => c.path) := by
  suffices h : ∀ (l : List FileChange) (acc : List (String × FileChange)),
      x ∈ dictKeys (l.foldl (fun d c => dictUpsert d c.path c) acc) ↔
        x ∈ dictKeys acc ∨ x ∈ l.map (fun c => c.path) by
    rw [buildFilesDict, h l []]
    simp [dictKeys]
  intro l
  induction l with
  | nil => intro acc; simp
  | cons c rest ih =>
      intro acc
      rw [List.foldl_cons, ih (dictUpsert acc c.path c), dictKeys_upsert,
        List.map_cons, List.mem_cons]
      tauto

theorem buildFilesDict_mem (l : List FileChange) (k : String)
    (c : FileChange) (h : (k, c) ∈ buildFilesDict l) :
    c ∈ l ∧ c.path = k := by
  suffices hgen : ∀ (l : List FileChange) (acc : List (String × FileChange)),
      (k, c) ∈ l.foldl (fun d c => dictUpsert d c.path c) acc →
        (k, c) ∈ acc ∨ (c ∈ l ∧ c.path = k) by
    rcases hgen l [] h with hacc | hok
    · exact absurd hacc (List.not_mem_nil _)
    · exact hok
  intro l
  induction l with
  | nil => intro acc hmem; left; exact hmem
  | cons c0 rest ih =>
      intro acc hmem
      rcases ih (dictUpsert acc c0.path c0) hmem with hup | hok
      · rcases dictMem_upsert acc c0.path c0 (k, c) hup with hacc | heq
        · left; exact hacc
        · right
          have h1 : k = c0.path := congrArg Prod.fst heq
          have h2 : c = c0 := congrArg Prod.snd heq
          exact ⟨h2 ▸ List.mem_cons_self c0 rest, by rw [h2, h1]⟩
      · right
        exact ⟨List.mem_cons_of_mem c0 hok.1, hok.2⟩

theorem pathsWithType_mem (out : List FileChange) (ty p : String) :
    p ∈ pathsWithType out ty ↔
      ∃ c, c ∈ out ∧ c.change_type = ty ∧ c.path = p := by
  unfold pathsWithType
  rw [List.mem_map]
  constructor
  · rintro ⟨c, hc, hp⟩
    have := List.mem_filter.mp hc
    exact ⟨c, this.1, by simpa using this.2, hp⟩
  · rintro ⟨c, hc, hty, hp⟩
    exact ⟨c, List.mem_filter.mpr ⟨hc, by simpa using hty⟩, hp⟩

theorem diff_addedPaths (m1 m2 : SnapshotMetadata)
    (h2a : ∀ c ∈ m2.file_changes,
      c.path ∉ m1.file_changes.map (fun c => c.path) →
        c.change_type = "added")
    (p : String) :
    p ∈ pathsWithType (diffMeta m1 m2) "added" ↔
      p ∈ m2.file_changes.map (fun c => c.path) ∧
        p ∉ m1.file_changes.map (fun c => c.path) := by
  rw [pathsWithType_mem]
  constructor
  · rintro ⟨c, hc, hty, hp⟩
    rcases List.mem_append.mp hc with hA | hB
    · obtain ⟨pc, hpc, hfc⟩ := List.mem_filterMap.mp hA
      cases hl : dictLookup (buildFilesDict m1.file_changes) pc.1 with
      | none =>
          rw [hl] at hfc
          have hcc : pc.2 = c := Option.some.inj hfc
          obtain ⟨hcin, hcp⟩ := buildFilesDict_mem m2.file_changes pc.1 pc.2
            (by simpa using hpc)
          constructor
          · rw [← hp, ← hcc]
            exact List.mem_map_of_mem (fun c => c.path) hcin
          · rw [← hp, ← hcc, hcp]
            rw [dictLookup_none_iff] at hl
            rw [buildFilesDict_keys] at hl
            exact hl
      | some c1 =>
          rw [hl] at hfc
          dsimp only at hfc
          by_cases hck : c1.checksum ≠ pc.2.checksum
          · rw [if_pos hck] at hfc
            have := Option.some.inj hfc
            rw [← this] at hty
            simp at hty
          · rw [if_neg hck] at hfc
            exact Option.noConfusion hfc
    · obtain ⟨pc, hpc, hfc⟩ := List.mem_filterMap.mp hB
      cases hl : dictLookup (buildFilesDict m2.file_changes) pc.1 with
      | none =>
          rw [hl] at hfc
          have := Option.some.inj hfc
          rw [← this] at hty
          simp at hty
      | some c1 =>
          rw [hl] at hfc
          exact Option.noConfusion hfc
  · rintro ⟨hp2, hp1⟩
    obtain ⟨c2, hc2⟩ := dictKeys_exists_val (buildFilesDict m2.file_changes) p
      ((buildFilesDict_keys m2.file_changes p).mpr hp2)
    obtain ⟨hc2in, hc2p⟩ := buildFilesDict_mem m2.file_changes p c2 hc2
    have hl : dictLookup (buildFilesDict m1.file_changes) p = none := by
      rw [dictLookup_none_iff, buildFilesDict_keys]
      exact hp1
    refine ⟨c2, List.mem_append.mpr (Or.inl ?_),
      h2a c2 hc2in (hc2p ▸ hp1), hc2p⟩
    exact List.mem_filterMap.mpr ⟨(p, c2), hc2, by rw [hl]⟩

theorem diff_deletedPaths (m1 m2 : SnapshotMetadata)
    (h1d : ∀ c ∈ m1.file_changes,
      c.path ∉ m2.file_changes.map (fun c => c.path) →
        c.change_type ≠ "deleted")
    (p : String) :
    p ∈ pathsWithType (diffMeta m2 m1) "deleted" ↔
      p ∈ m2.file_changes.map (fun c => c.path) ∧
        p ∉ m1.file_changes.map (fun c => c.path) := by
  rw [pathsWithType_mem]
  constructor
  · rintro ⟨c, hc, hty, hp⟩
    rcases List.mem_append.mp hc with hA | hB
    · obtain ⟨pc, hpc, hfc⟩ := List.mem_filterMap.mp hA
      cases hl : dictLookup (buildFilesDict m2.file_changes) pc.1 with
      | none =>
          rw [hl] at hfc
          have hcc : pc.2 = c := Option.some.inj hfc
          obtain ⟨hcin, hcp⟩ := buildFilesDict_mem m1.file_changes pc.1 pc.2
            (by simpa using hpc)
          rw [dictLookup_none_iff, buildFilesDict_keys] at hl
          exact absurd (hcc ▸ hty)
            (h1d pc.2 hcin (by rw [hcp]; exact hl))
      | some c1 =>
          rw [hl] at hfc
          dsimp only at hfc
          by_cases hck : c1.checksum ≠ pc.2.checksum
          · rw [if_pos hck] at hfc
            have := Option.some.inj hfc
            rw [← this] at hty
            simp at hty
          · rw [if_neg hck] at hfc
            exact Option.noConfusion hfc
    · obtain ⟨pc, hpc, hfc⟩ := List.mem_filterMap.mp hB
      cases hl : dictLookup (buildFilesDict m1.file_changes) pc.1 with
      | none =>
          rw [hl] at hfc
          have hcc := Option.some.inj hfc
          have hpcp : pc.1 = p := by rw [← hp, ← hcc]
          obtain ⟨c2, hc2⟩ := dictKeys_exists_val _ pc.1
            (List.mem_map_of_mem (fun q => q.1) hpc)
          obtain ⟨hc2in, _⟩ := buildFilesDict_mem m2.file_changes pc.1 c2 hc2
          constructor
          · rw [← hpcp]
            have hkey : pc.1 ∈ dictKeys (buildFilesDict m2.file_changes) :=
              List.mem_map_of_mem (fun q => q.1) hpc
            exact (buildFilesDict_keys m2.file_changes pc.1).mp hkey
          · rw [← hpcp]
            rw [dictLookup_none_iff, buildFilesDict_keys] at hl
            exact hl
      | some c1 =>
          rw [hl] at hfc
          exact Option.noConfusion hfc
  · rintro ⟨hp2, hp1⟩
    obtain ⟨c2, hc2⟩ := dictKeys_exists_val (buildFilesDict m2.file_changes) p
      ((buildFilesDict_keys m2.file_changes p).mpr hp2)
    have hl : dictLookup (buildFilesDict m1.file_changes) p = none := by
      rw [dictLookup_none_iff, buildFilesDict_keys]
      exact hp1
    refine ⟨{ path := p, change_type := "deleted" },
      List.mem_append.mpr (Or.inr ?_), rfl, rfl⟩
    exact List.mem_filterMap.mpr ⟨(p, c2), hc2, by rw [hl]⟩

/-- First persisted snapshot of the C9 scenarios: no file changes. -/
def c9meta1 : SnapshotMetadata := { snapshot_id := "s1" }

/-- Second persisted snapshot of the C9 counterexample: its only
file-change entry is stored with change_type modified. -/
def c9meta2 : SnapshotMetadata :=
  { snapshot_id := "s2",
    file_changes := [{ path := "a", change_type := "modified" }] }

/-- Database holding the two C9 counterexample snapshots. -/
def c9db : MetadataDB := dbSave (dbSave {} c9meta1) c9meta2

/-- C9 counterexample: for the persisted snapshots s1 (no changes) and s2
(one entry for path a stored as modified), diff(s2, s1) reports path a as
deleted but diff(s1, s2) does not report it as added — the second-only
branch passes through the stored change_type instead of labelling the
entry added, so the two path sets differ. -/
theorem diff_symmetry_counterexample :
    "a" ∈ pathsWithType (managerDiff c9db "s2" "s1") "deleted" ∧
      "a" ∉ pathsWithType (managerDiff c9db "s1" "s2") "added" := by
  decide

/-- C9 (amended): for distinct persisted snapshots S1 and S2, the paths
reported as added by diff(S1, S2) are the paths present only in S2, and
they equal the paths reported as deleted by diff(S2, S1), provided every
S2 entry whose path is absent from S1 is stored with change_type added and
no S1 entry whose path is absent from S2 is stored with change_type
deleted; without those provisos the sets can differ because the
second-only branch reports entries under their stored change types. -/
theorem diff_symmetry_amended (db : MetadataDB) (id1 id2 : String)
    (m1 m2 : SnapshotMetadata) (hne : id1 ≠ id2)
    (h1 : dbGet db id1 = some m1) (h2 : dbGet db id2 = some m2)
    (h2a : ∀ c ∈ m2.file_changes,
      c.path ∉ m1.file_changes.map (fun c => c.path) →
        c.change_type = "added")
    (h1d : ∀ c ∈ m1.file_changes,
      c.path ∉ m2.file_changes.map (fun c => c.path) →
        c.change_type ≠ "deleted")
    (p : String) :
    p ∈ pathsWithType (managerDiff db id1 id2) "added" ↔
      p ∈ pathsWithType (managerDiff db id2 id1) "deleted" := by
  unfold managerDiff
  rw [h1, h2]
  dsimp only
  rw [diff_addedPaths m1 m2 h2a p, diff_deletedPaths m1 m2 h1d p]

/-- Second persisted snapshot of the C9 witness: its only file-change
entry is stored with change_type added. -/
def c9meta2w : SnapshotMetadata :=
  { snapshot_id := "s2",
    file_changes := [{ path := "a", change_type := "added" }] }

/-- Database holding the two C9 witness snapshots. -/
def c9dbw : MetadataDB := dbSave (dbSave {} c9meta1) c9meta2w

/-- C9 witness: with the pass-through change type actually added, the
added set of diff(s1, s2) and the deleted set of diff(s2, s1) agree on
path a. -/
theorem diff_symmetry_witness :
    "a" ∈ pathsWithType (managerDiff c9dbw "s1" "s2") "added" ↔
      "a" ∈ pathsWithType (managerDiff c9dbw "s2" "s1") "deleted" :=
  diff_symmetry_amended c9dbw "s1" "s2" c9meta1 c9meta2w (by decide)
    (by decide) (by decide) (by decide) (by decide) "a"

/-! ## Decimal strings round-trip through the Python int() model -/

theorem digit_char_facts : ∀ r < 10,
    isDecDigit (Char.ofNat (48 + r)) = true ∧
      digitVal (Char.ofNat (48 + r)) = r := by decide

theorem digitChar10_isDec (n : Nat) : isDecDigit (digitChar10 n) = true :=
  (digit_char_facts (n % 10) (Nat.mod_lt n (by norm_num))).1

theorem digitVal_digitChar10 (n : Nat) : digitVal (digitChar10 n) = n % 10 :=
  (digit_char_facts (n % 10) (Nat.mod_lt n (by norm_num))).2

theorem natDecChars_all_digits (n : Nat) :
    ∀ c ∈ natDecChars n, isDecDigit c = true := by
  induction n using Nat.strong_induction_on with
  | _ n ih =>
      rw [natDecChars]
      by_cases h : n < 10
      · rw [dif_pos h]
        intro c hc
        rw [List.mem_singleton.mp hc]
        exact digitChar10_isDec n
      · rw [dif_neg h]
        intro c hc
        rcases List.mem_append.mp hc with hc | hc
        · exact ih (n / 10) (Nat.div_lt_self (by omega) (by norm_num)) c hc
        · rw [List.mem_singleton.mp hc]
          exact digitChar10_isDec (n % 10)

theorem natDecChars_ne_nil (n : Nat) : natDecChars n ≠ [] := by
  rw [natDecChars]
  by_cases h : n < 10
  · rw [dif_pos h]; exact List.cons_ne_nil _ _
  · rw [dif_neg h]
    intro hc
    exact List.cons_ne_nil _ _ (List.append_eq_nil.mp hc).2

theorem natDecChars_foldl (n : Nat) :
    (natDecChars n).foldl (fun a c => a * 10 + digitVal c) 0 = n := by
  induction n using Nat.strong_induction_on with
  | _ n ih =>
      rw [natDecChars]
      by_cases h : n < 10
      · rw [dif_pos h]
        simp only [List.foldl_cons, List.foldl_nil]
        rw [digitVal_digitChar10]
        omega
      · rw [dif_neg h]
        rw [List.foldl_append]
        rw [ih (n / 10) (Nat.div_lt_self (by omega) (by norm_num))]
        simp only [List.foldl_cons, List.foldl_nil]
        rw [digitVal_digitChar10]
        omega

theorem pyDigitsAux_digits (l : List Char) :
    ∀ acc, (∀ c ∈ l, isDecDigit c = true) →
      pyDigitsAux acc l =
        some (l.foldl (fun a c => a * 10 + digitVal c) acc) := by
  induction l with
  | nil => intro acc _; rfl
  | cons c rest ih =>
      intro acc hall
      have hc : isDecDigit c = true := hall c (List.mem_cons_self c rest)
      conv_lhs => unfold pyDigitsAux
      rw [if_pos hc, List.foldl_cons]
      exact ih (acc * 10 + digitVal c)
        (fun x hx => hall x (List.mem_cons_of_mem c hx))

theorem pyDigits_digits (l : List Char) (hne : l ≠ [])
    (hall : ∀ c ∈ l, isDecDigit c = true) :
    pyDigits l = some (l.foldl (fun a c => a * 10 + digitVal c) 0) := by
  cases l with
  | nil => exact absurd rfl hne
  | cons c rest =>
      have hc : isDecDigit c = true := hall c (List.mem_cons_self c rest)
      conv_lhs => unfold pyDigits
      dsimp only
      rw [if_pos hc,
        pyDigitsAux_digits rest (digitVal c)
          (fun x hx => hall x (List.mem_cons_of_mem c hx)),
        List.foldl_cons]
      have : (0 : Nat) * 10 + digitVal c = digitVal c := by omega
      rw [this]

/-- Characters of decimal strings: a digit or the minus sign. -/
def decChar (c : Char) : Prop := isDecDigit c = true ∨ c = '-'

theorem intDecStr_chars (i : Int) : ∀ c ∈ (intDecStr i).data, decChar c := by
  unfold intDecStr
  by_cases h : i < 0
  · rw [if_pos h]
    intro c hc
    rw [String.data_append] at hc
    rcases List.mem_append.mp hc with hc | hc
    · right; exact List.mem_singleton.mp hc
    · left; exact natDecChars_all_digits (-i).toNat c hc
  · rw [if_neg h]
    intro c hc
    left; exact natDecChars_all_digits i.toNat c hc

theorem decChar_not_space (c : Char) (h : decChar c) : isPySpace c = false := by
  rcases h with h | h
  · apply decide_eq_false
    rintro (rfl | rfl | rfl | rfl | rfl | rfl) <;>
      exact absurd h (by decide)
  · rw [h]; rfl

theorem decChar_lower (c : Char) (h : decChar c) : asciiLower c = c := by
  rcases h with h | h
  · unfold asciiLower
    rw [if_neg]
    unfold isDecDigit at h
    rw [Bool.and_eq_true, decide_eq_true_eq, decide_eq_true_eq] at h
    omega
  · rw [h]; rfl

theorem dropWhile_no_space (l : List Char)
    (h : ∀ c ∈ l, isPySpace c = false) : l.dropWhile isPySpace = l := by
  cases l with
  | nil => rfl
  | cons c rest =>
      rw [List.dropWhile]
      rw [h c (List.mem_cons_self c rest)]

theorem stripList_no_space (l : List Char)
    (h : ∀ c ∈ l, isPySpace c = false) : stripList l = l := by
  unfold stripList
  rw [dropWhile_no_space l h,
    dropWhile_no_space l.reverse (fun c hc => h c (List.mem_reverse.mp hc)),
    List.reverse_reverse]

theorem pyInt_intDecStr (i : Int) : pyInt (intDecStr i) = some i := by
  have hstrip : (pyStrip (intDecStr i)).data = (intDecStr i).data := by
    show stripList (intDecStr i).data = (intDecStr i).data
    exact stripList_no_space _
      (fun c hc => decChar_not_space c (intDecStr_chars i c hc))
  unfold pyInt
  rw [hstrip]
  by_cases h : i < 0
  · have hdata : (intDecStr i).data = '-' :: natDecChars (-i).toNat := by
      unfold intDecStr
      rw [if_pos h, String.data_append]
      rfl
    rw [hdata]
    dsimp only
    rw [if_pos rfl]
    rw [pyDigits_digits _ (natDecChars_ne_nil _) (natDecChars_all_digits _),
      natDecChars_foldl]
    have : -(((-i).toNat : Nat) : Int) = i := by omega
    rw [Option.map_some', this]
  · have hdata : (intDecStr i).data = natDecChars i.toNat := by
      unfold intDecStr
      rw [if_neg h]
      rfl
    rw [hdata]
    cases hn : natDecChars i.toNat with
    | nil => exact absurd hn (natDecChars_ne_nil _)
    | cons c rest =>
        have hcd : isDecDigit c = true := by
          apply natDecChars_all_digits i.toNat
          rw [hn]; exact List.mem_cons_self c rest
        have hdash : ¬ (c = '-') := by
          intro hc; rw [hc] at hcd; exact absurd hcd (by decide)
        have hplus : ¬ (c = '+') := by
          intro hc; rw [hc] at hcd; exact absurd hcd (by decide)
        dsimp only
        rw [if_neg hdash, if_neg hplus, ← hn,
          pyDigits_digits _ (natDecChars_ne_nil _)
            (natDecChars_all_digits _),
          natDecChars_foldl]
        have : ((i.toNat : Nat) : Int) = i := Int.toNat_of_nonneg (by omega)
        rw [Option.map_some', this]

theorem lowerStrip_concat (i : Int) (u : Char) (hu : isPySpace u = false)
    (hlu : asciiLower u = u) :
    (pyLower (pyStrip (intDecStr i ++ (⟨[u]⟩ : String)))).data =
      (intDecStr i).data ++ [u] := by
  show ((stripList (intDecStr i ++ (⟨[u]⟩ : String)).data).map asciiLower) =
    (intDecStr i).data ++ [u]
  rw [String.data_append]
  have hmem : ∀ c ∈ (intDecStr i).data ++ [u], isPySpace c = false := by
    intro c hc
    rcases List.mem_append.mp hc with h | h
    · exact decChar_not_space c (intDecStr_chars i c h)
    · rw [List.mem_singleton.mp h]; exact hu
  rw [show ((⟨[u]⟩ : String).data) = [u] from rfl,
    stripList_no_space _ hmem]
  rw [List.map_congr_left (g := id) (fun c hc => by
    rcases List.mem_append.mp hc with h | h
    · exact decChar_lower c (intDecStr_chars i c h)
    · rw [List.mem_singleton.mp h]; exact hlu)]
  exact List.map_id _

theorem parseSchedule_intDec_h (i : Int) :
    parseSchedule (intDecStr i ++ "h") = some (i * 3600) := by
  unfold parseSchedule
  rw [show ("h" : String) = (⟨['h']⟩ : String) from rfl,
    lowerStrip_concat i 'h' (by decide) (by decide),
    List.getLast?_concat]
  dsimp only
  rw [if_pos rfl, List.dropLast_concat,
    show (⟨(intDecStr i).data⟩ : String) = intDecStr i from rfl,
    pyInt_intDecStr, Option.map_some']

theorem parseSchedule_intDec_m (i : Int) :
    parseSchedule (intDecStr i ++ "m") = some (i * 60) := by
  unfold parseSchedule
  rw [show ("m" : String) = (⟨['m']⟩ : String) from rfl,
    lowerStrip_concat i 'm' (by decide) (by decide),
    List.getLast?_concat]
  dsimp only
  rw [if_neg (by decide), if_pos rfl, List.dropLast_concat,
    show (⟨(intDecStr i).data⟩ : String) = intDecStr i from rfl,
    pyInt_intDecStr, Option.map_some']

theorem parseSchedule_intDec_d (i : Int) :
    parseSchedule (intDecStr i ++ "d") = some (i * 86400) := by
  unfold parseSchedule
  rw [show ("d" : String) = (⟨['d']⟩ : String) from rfl,
    lowerStrip_concat i 'd' (by decide) (by decide),
    List.getLast?_concat]
  dsimp only
  rw [if_neg (by decide), if_neg (by decide), if_pos rfl,
    List.dropLast_concat,
    show (⟨(intDecStr i).data⟩ : String) = intDecStr i from rfl,
    pyInt_intDecStr, Option.map_some']

/-- C8 counterexample: the string 5H is not of the form Nh, Nm, or Nd (its
final character is an uppercase H, none of the three unit letters), yet
the parser accepts it as five hours, because _parse_schedule lowercases
its input before matching the unit; so not every string outside the
claimed grammar fails to parse. -/
theorem parseSchedule_counterexample :
    parseSchedule "5H" = some (5 * 3600) ∧
      ("5H").data.getLast? = some 'H' ∧
      'H' ∉ (['h', 'm', 'd'] : List Char) := by
  exact ⟨rfl, rfl, by decide⟩

/-- C8 (amended): for every integer N written in canonical decimal, the
schedule strings Nh, Nm, and Nd parse to N hours, minutes, and days; the
claim's example strings abc, 5x and the empty string all fail to parse;
and on any unparseable schedule the scheduler loop exits at once, firing
no backups.  (The claim's universal failure of all other strings is false:
the parser first trims whitespace and lowercases, so strings such as 5H
also parse.) -/
theorem parseSchedule_amended :
    (∀ i : Int,
      parseSchedule (intDecStr i ++ "h") = some (i * 3600) ∧
      parseSchedule (intDecStr i ++ "m") = some (i * 60) ∧
      parseSchedule (intDecStr i ++ "d") = some (i * 86400)) ∧
    parseSchedule "abc" = none ∧
    parseSchedule "5x" = none ∧
    parseSchedule "" = none ∧
    (∀ (s : String) (start : Int) (wakeups : List Int),
      parseSchedule s = none → scheduleLoop s start wakeups = []) := by
  refine ⟨fun i => ⟨parseSchedule_intDec_h i, parseSchedule_intDec_m i,
    parseSchedule_intDec_d i⟩, rfl, rfl, rfl, ?_⟩
  intro s start wakeups h
  unfold scheduleLoop
  rw [h]

/-- C8 witness: the concrete cadence 5h parses to five hours and the
unparseable cadence 5x makes the loop fire nothing over two wake-ups. -/
theorem parseSchedule_amended_witness :
    parseSchedule (intDecStr 5 ++ "h") = some (5 * 3600) ∧
      scheduleLoop "5x" 0 [0, 60] = [] :=
  ⟨(parseSchedule_amended.1 5).1,
    parseSchedule_amended.2.2.2.2 "5x" 0 [0, 60] rfl⟩

end BackupRestic


